import Mathlib

/-
Verification development for the a2a-langgraph-boilerplate multi-agent
orchestration engine.  The definitions below are a shallow embedding of the
Python sources:

  * `src/app/core/tools.py`   — `ResilientMcpTool._resilient_run` / `_resilient_arun`
  * `src/app/core/graph.py`   — `summarize_messages`, `manage_context_growth`,
                                `wrap_supervisor`, `create_agent_wrapper`
  * `src/app/core/agents.py`  — `_supervisor_invoker`, `_agent_invoker`,
                                `create_final_response_chain`
  * `src/app/services/crew.py`— the completion-time deduplication pass of
                                `_execute_prompt_async`

Language-model outputs, tool results and the synthesized final response are
oracles: they enter the functions as explicit parameters, so every theorem
quantifies over the possible provider behaviours.
-/

namespace A2A

/-- Messages as they appear in the transcript.  The Python code mixes typed
langchain message objects (`HumanMessage`, `AIMessage`, `SystemMessage`) with
plain dicts of the shape `\x7b"type": ..., "content": ...\x7d` (the forced
termination record in `create_agent_wrapper`), so the embedding keeps both. -/
inductive Msg where
  | human (content : String)
  | ai (name : Option String) (content : String) (toolCalls : List String)
  | system (content : String)
  | dictMsg (type : String) (content : String)
deriving DecidableEq, Repr

/-- The `content` attribute shared by every message shape. -/
def Msg.content : Msg → String
  | .human c => c
  | .ai _ c _ => c
  | .system c => c
  | .dictMsg _ c => c

/-- `getattr(msg, "tool_calls", None)` with `None`/missing read as empty. -/
def Msg.toolCalls : Msg → List String
  | .ai _ _ tc => tc
  | _ => []

/-- Python class name of the message (used by the dedup key in crew.py);
for a plain dict it is the dict's own `type` field (`msg.get("type")`). -/
def Msg.pyClassName : Msg → String
  | .human _ => "HumanMessage"
  | .ai _ _ _ => "AIMessage"
  | .system _ => "SystemMessage"
  | .dictMsg t _ => t

/-- Does `needle` occur at the head of `hay`? -/
def charsLead : List Char → List Char → Bool
  | [], _ => true
  | _ :: _, [] => false
  | a :: as, b :: bs => a == b && charsLead as bs

/-- Does `needle` occur anywhere in `hay`? -/
def charsSub (needle : List Char) : List Char → Bool
  | [] => charsLead needle []
  | c :: cs => charsLead needle (c :: cs) || charsSub needle cs

/-- Python's substring test `needle in hay`. -/
def pyIn (needle hay : String) : Bool :=
  charsSub needle.toList hay.toList

/-- `d.get(k, 0)` on the `agent_visits` dict, embedded as an association list. -/
def dictGet (d : List (String × Nat)) (k : String) : Nat :=
  match d with
  | [] => 0
  | (k', v) :: rest => if k' = k then v else dictGet rest k

/-- `d[k] = v` on the `agent_visits` dict. -/
def dictSet (d : List (String × Nat)) (k : String) (v : Nat) : List (String × Nat) :=
  match d with
  | [] => [(k, v)]
  | (k', v') :: rest => if k' = k then (k, v) :: rest else (k', v') :: dictSet rest k v

/-! ## Tool layer: `ResilientMcpTool` (src/app/core/tools.py) -/

/-- Exception classes distinguished by `_resilient_arun`'s except clauses:
`httpx.HTTPStatusError`/`ConnectError`/`ReadTimeout` (network), `UnboundLocalError`,
and any other `Exception` (generic).  `msg` is `str(e)`. -/
inductive ToolErr where
  | network (msg : String)
  | unboundLocal (msg : String)
  | generic (msg : String)
deriving DecidableEq, Repr

/-- The error string returned by `_resilient_run` once retries are exhausted
(tools.py line 91); `e` is `str(e)` of the last exception. -/
def run_fail_msg (max_retries : Nat) (e : String) : String :=
  "Error: Tool call failed after " ++ toString (max_retries + 1) ++
    " attempts. The external service may be unavailable or experiencing issues. " ++ e

/-- `ResilientMcpTool._resilient_run`, tools.py lines 80-91.  `base attempt` is
the outcome of `self._base_tool._run(**kwargs)` on the given attempt
(`Except.error e` embeds a raised exception with message `e`).  The Python
`for attempt in range(self.max_retries + 1)` loop becomes recursion on the
attempt index; `time.sleep` is a pure no-op here. -/
def resilient_run_go (base : Nat → Except String String) (max_retries attempt : Nat) :
    String :=
  match base attempt with
  | Except.ok v => v
  | Except.error e =>
    if _h : attempt < max_retries then
      resilient_run_go base max_retries (attempt + 1)
    else
      run_fail_msg max_retries e
termination_by max_retries - attempt
decreasing_by all_goals omega

/-- `_resilient_run` entered at attempt 0.  Its return type `String` records
that the synchronous wrapper catches every exception. -/
def resilient_run (base : Nat → Except String String) (max_retries : Nat) : String :=
  resilient_run_go base max_retries 0

/-- `ResilientMcpTool._resilient_arun`, tools.py lines 93-120.  An
`UnboundLocalError` whose message mentions `call_tool_result` returns an error
string immediately; any other `UnboundLocalError` is re-raised (`raise`, line
112), embedded as `Except.error`.  Network and generic errors retry and, once
retries are exhausted, return their respective error strings. -/
def resilient_arun_go (base : Nat → Except ToolErr String) (max_retries attempt : Nat) :
    Except ToolErr String :=
  match base attempt with
  | Except.ok v => Except.ok v
  | Except.error (ToolErr.network m) =>
    if _h : attempt < max_retries then
      resilient_arun_go base max_retries (attempt + 1)
    else
      Except.ok ("Error: MCP server connection failed. The service might be temporarily unavailable or experiencing high load. Details: " ++ m)
  | Except.error (ToolErr.unboundLocal m) =>
    if pyIn "call_tool_result" m then
      Except.ok "Error: MCP server connection failed during tool execution. The MCP server might be unavailable or experiencing timeout issues."
    else
      Except.error (ToolErr.unboundLocal m)
  | Except.error (ToolErr.generic m) =>
    if _h : attempt < max_retries then
      resilient_arun_go base max_retries (attempt + 1)
    else
      Except.ok ("Error: Tool execution failed. Details: " ++ m)
termination_by max_retries - attempt
decreasing_by all_goals omega

/-- `_resilient_arun` entered at attempt 0. -/
def resilient_arun (base : Nat → Except ToolErr String) (max_retries : Nat) :
    Except ToolErr String :=
  resilient_arun_go base max_retries 0

/-! ## Context manager (src/app/core/graph.py lines 104-163) -/

/-- The summary text built at graph.py lines 124-125 for `n` dropped messages. -/
def summary_content (n : Nat) : String :=
  "Summary of " ++ toString n ++
    " previous messages: Agents discussed the query and exchanged information about machine learning concepts."

/-- `summarize_messages`, graph.py lines 104-130.  Keeps `messages[0]` and the
last `max_keep` messages; if `messages[1:-max_keep]` is non-empty a synthetic
`SystemMessage` summary is inserted at index 1. -/
def summarize_messages (messages : List Msg) (max_keep : Nat) : List Msg :=
  if messages.length ≤ max_keep then messages
  else
    let last_part := messages.drop (messages.length - max_keep)
    let keep_messages := messages.take 1 ++ last_part
    let dropped := (messages.drop 1).take (messages.length - 1 - max_keep)
    if dropped.isEmpty then keep_messages
    else messages.take 1 ++ [Msg.system (summary_content dropped.length)] ++ last_part

/-- The slice of the state read and written by `manage_context_growth`.
`none` stands for an absent dict key. -/
structure CtxState where
  messages : Option (List Msg)
  message_count : Option Nat
deriving DecidableEq, Repr

/-- `manage_context_growth`, graph.py lines 133-155: initialize
`message_count` if missing, refresh it to `len(messages)`, and summarize with
`max_keep = 3` whenever more than 5 messages have accumulated. -/
def manage_context_growth (state : CtxState) : CtxState :=
  let state1 :=
    match state.message_count with
    | none => { state with message_count := some 0 }
    | some _ => state
  match state1.messages with
  | none => state1
  | some msgs =>
    if msgs.length > 5 then
      let newMsgs := summarize_messages msgs 3
      { messages := some newMsgs, message_count := some newMsgs.length }
    else
      { state1 with message_count := some msgs.length }

/-! ## Supervisor and worker wrappers (src/app/core/graph.py, agents.py) -/

/-- The structured routing decision returned by
`(prompt | llm.with_structured_output(function_def)).invoke(state)` in
`_supervisor_invoker` (agents.py lines 76-93).  `none` stands for a missing
dict key. -/
structure RouteResult where
  next? : Option String
  reasoning : Option String
deriving DecidableEq, Repr

/-- The dict `_supervisor_invoker` returns: one supervisor message plus the
routing decision.  It never carries a `message_count` key, which is recorded
by the `Option` field. -/
structure SupUpdate where
  messages : List Msg
  next : String
  message_count : Option Nat
deriving DecidableEq, Repr

/-- The supervisor's reasoning message, `AIMessage(content=result.get("reasoning",
"Processing request..."), name="supervisor")` (agents.py lines 82-85). -/
def supervisor_message (result : RouteResult) : Msg :=
  Msg.ai (some "supervisor") (result.reasoning.getD "Processing request...") []

/-- `_supervisor_invoker`, agents.py lines 76-93.  `result["next"]` raises
`KeyError` when the structured output lacks a `next` key (embedded as
`Except.error`); `result.get("reasoning", ...)` tolerates a missing reasoning. -/
def supervisor_invoker (result : RouteResult) : Except String SupUpdate :=
  match result.next? with
  | none => Except.error "KeyError: next"
  | some nxt =>
    Except.ok { messages := [supervisor_message result], next := nxt, message_count := none }

/-- The `goto` target of a LangGraph `Command`: a named node or `END`. -/
inductive Goto where
  | node (name : String)
  | END
deriving DecidableEq, Repr

/-- The run state relevant to routing decisions: the graph-accumulated
transcript plus the `StateManager` side-channel counters (graph.py lines
14-80).  `termination_reason` is the optional forced-termination marker. -/
structure RunState where
  messages : List Msg
  supervisor_visits : Nat
  agent_visits : List (String × Nat)
  termination_reason : Option String
deriving DecidableEq, Repr

/-- A `Command(update=..., goto=...)` as produced by
`StateManager.create_command`: the update's message list (merged into the
graph transcript by the `operator.add` reducer of `AgentState.messages`),
the counters pushed back to the side-channel, and the routing target. -/
structure CommandU where
  update_messages : List Msg
  supervisor_visits : Nat
  agent_visits : List (String × Nat)
  termination_reason : Option String
  goto : Goto
deriving DecidableEq, Repr

/-- `wrap_supervisor`, graph.py lines 173-265, with the supervisor's LLM
decision (`result`) and the synthesized final answer text (`synth`, the output
of `create_final_response_chain`) as oracles.  Branches in source order:

1. `next == "FINISH" or next == "__end__"` (line 193): terminal; the
   synthesized closing message is appended only when some `agent_visits`
   entry is positive (lines 197-210).
2. completion marker in the supervisor's own message (lines 218-222),
3. post-increment `supervisor_visits > 5` (lines 224-245),
4. `"message_count" in updated_state and updated_state["message_count"] > 6`
   (line 248) — `updated_state` is the invoker's partial dict, which never
   carries that key,
5. `len(updated_state["messages"]) > 12` (line 253) — likewise computed on
   the invoker's partial message list,
6. route to `next` when it names a known agent (lines 258-261), otherwise
   default to `END` (lines 263-265). -/
def wrap_supervisor (agentNames : List String) (synth : String) (result : RouteResult)
    (rs : RunState) : Except String CommandU :=
  match supervisor_invoker result with
  | Except.error e => Except.error e
  | Except.ok u =>
    if u.next = "FINISH" ∨ u.next = "__end__" then
      let noAgents := rs.agent_visits.isEmpty || rs.agent_visits.all (fun p => p.2 == 0)
      let msgs :=
        if noAgents then u.messages
        else u.messages ++ [Msg.ai (some "supervisor") synth []]
      Except.ok { update_messages := msgs, supervisor_visits := rs.supervisor_visits,
                  agent_visits := rs.agent_visits,
                  termination_reason := rs.termination_reason, goto := Goto.END }
    else if (match u.messages.getLast? with
             | some m => pyIn "FINAL RESPONSE:" m.content || pyIn "TASK COMPLETED" m.content
             | none => false) then
      Except.ok { update_messages := u.messages, supervisor_visits := rs.supervisor_visits,
                  agent_visits := rs.agent_visits,
                  termination_reason := rs.termination_reason, goto := Goto.END }
    else
      let sv := rs.supervisor_visits + 1
      if sv > 5 then
        Except.ok { update_messages := u.messages, supervisor_visits := sv,
                    agent_visits := rs.agent_visits,
                    termination_reason := rs.termination_reason, goto := Goto.END }
      else if (match u.message_count with | some c => decide (c > 6) | none => false) then
        Except.ok { update_messages := u.messages, supervisor_visits := sv,
                    agent_visits := rs.agent_visits,
                    termination_reason := rs.termination_reason, goto := Goto.END }
      else if u.messages.length > 12 then
        Except.ok { update_messages := u.messages, supervisor_visits := sv,
                    agent_visits := rs.agent_visits,
                    termination_reason := rs.termination_reason, goto := Goto.END }
      else if u.next ∈ agentNames then
        Except.ok { update_messages := u.messages, supervisor_visits := sv,
                    agent_visits := rs.agent_visits,
                    termination_reason := rs.termination_reason, goto := Goto.node u.next }
      else
        Except.ok { update_messages := u.messages, supervisor_visits := sv,
                    agent_visits := rs.agent_visits,
                    termination_reason := rs.termination_reason, goto := Goto.END }

/-- `_agent_invoker`, agents.py lines 21-36: the agent executor's output is
converted into a single `AIMessage` stamped with the creation-time `name`.
`output` and `tool_calls` are the oracle for `executor.invoke(state)`. -/
def agent_invoker (name output : String) (tool_calls : List String) : List Msg :=
  [Msg.ai (some name) output tool_calls]

/-- The `termination_reason` string set at graph.py line 308. -/
def max_visits_reason (agent_name : String) : String :=
  "Max visits to " ++ agent_name ++ " reached"

/-- The forced-termination record content built at graph.py line 311. -/
def max_visits_record (visits : Nat) (agent_name : String) : String :=
  "[SYSTEM] Workflow terminated due to max visits (" ++ toString visits ++ ") to " ++
    agent_name ++ "."

/-- `create_agent_wrapper`'s `wrapped_agent`, graph.py lines 268-347, with
`agentNodeOut` the oracle for `agent_node.invoke(state)["messages"]`.

* The per-agent counter is incremented first (lines 285-298).
* At `agent_visits[agent_name] >= 3` (line 304) the agent is never invoked:
  `termination_reason` is set, a plain `dict` system record is appended to
  the full message list of the incoming state, and the command routes to
  `END` (lines 304-315).
* Otherwise the agent runs; if its last message is an `AIMessage` it is
  re-stamped with `agent_name` (lines 320-328); tool calls route to `tools`,
  otherwise back to `supervisor` (lines 336-347). -/
def create_agent_wrapper (agent_name : String) (agentNodeOut : List Msg)
    (rs : RunState) : CommandU :=
  let agent_visits := dictSet rs.agent_visits agent_name (dictGet rs.agent_visits agent_name + 1)
  let visits := dictGet agent_visits agent_name
  if visits ≥ 3 then
    { update_messages := rs.messages ++ [Msg.dictMsg "system" (max_visits_record visits agent_name)],
      supervisor_visits := rs.supervisor_visits,
      agent_visits := agent_visits,
      termination_reason := some (max_visits_reason agent_name),
      goto := Goto.END }
  else
    let renamed :=
      match agentNodeOut.getLast? with
      | some (Msg.ai _ c tc) => agentNodeOut.dropLast ++ [Msg.ai (some agent_name) c tc]
      | _ => agentNodeOut
    let tc := match renamed.getLast? with
              | some m => m.toolCalls
              | none => []
    { update_messages := renamed,
      supervisor_visits := rs.supervisor_visits,
      agent_visits := agent_visits,
      termination_reason := rs.termination_reason,
      goto := if tc.isEmpty then Goto.node "supervisor" else Goto.node "tools" }

/-- Application of a `Command`'s update to the graph state: `messages` goes
through the `operator.add` reducer declared on `AgentState` (graph.py lines
83-88), every other field is overwritten. -/
def applyCommand (rs : RunState) (c : CommandU) : RunState :=
  { messages := rs.messages ++ c.update_messages,
    supervisor_visits := c.supervisor_visits,
    agent_visits := c.agent_visits,
    termination_reason := c.termination_reason }

/-! ## Completion-time deduplication (src/app/services/crew.py lines 253-304) -/

/-- The dedup key `f"\x7bmsg_type\x7d:\x7bcontent\x7d"` built at crew.py line 275. -/
def dedup_key (m : Msg) : String :=
  m.pyClassName ++ ":" ++ m.content

/-- The first-occurrence filter of crew.py lines 257-278 (`seen_contents`
accumulates keys already emitted). -/
def dedup_go (seen : List String) : List Msg → List Msg
  | [] => []
  | m :: rest =>
    if dedup_key m ∈ seen then dedup_go seen rest
    else m :: dedup_go (dedup_key m :: seen) rest

/-- Test used by the human-message collapse (crew.py lines 288-297): a typed
`HumanMessage` or a dict whose `type` field is `"HumanMessage"`. -/
def is_human_msg (m : Msg) : Bool :=
  match m with
  | Msg.human _ => true
  | Msg.dictMsg t _ => t == "HumanMessage"
  | _ => false

/-- crew.py lines 287-299: when more than one human message survives, drop
them all and re-insert the first at position 0. -/
def collapse_humans (msgs : List Msg) : List Msg :=
  let humans := msgs.filter is_human_msg
  if humans.length > 1 then
    match humans with
    | [] => msgs
    | h :: _ => h :: msgs.filter (fun m => ¬ is_human_msg m)
  else msgs

/-- The completion-time post-processing of `_execute_prompt_async` (crew.py
lines 253-304): the dedup pass always runs; the human-message collapse runs
only inside the `initial_count != final_count` branch (line 283). -/
def post_process_messages (msgs : List Msg) : List Msg :=
  let unique := dedup_go [] msgs
  if unique.length ≠ msgs.length then collapse_humans unique else msgs

/-! ## The run-level state machine (graph wiring, graph.py lines 351-373,
and the initial state of crew.py lines 224-240) -/

/-- The nodes of the compiled workflow: `pre_process`, `supervisor`, one node
per worker, `tools`, and the terminal `END`. -/
inductive GNode where
  | pre
  | supervisor
  | worker (name : String)
  | tools
  | terminal
deriving DecidableEq, Repr

/-- Where a `Command`'s `goto` lands. -/
def Goto.toNode : Goto → GNode
  | Goto.END => GNode.terminal
  | Goto.node n =>
    if n = "tools" then GNode.tools
    else if n = "supervisor" then GNode.supervisor
    else GNode.worker n

/-- A point of the run: accumulated state plus current node. -/
structure Config where
  rs : RunState
  loc : GNode
deriving DecidableEq, Repr

/-- The `pre_process` node: `manage_context_growth` returns the full state
dict, whose `messages` go back through the `operator.add` reducer; the graph
edge `pre_process → supervisor` (graph.py line 365) fixes the successor. -/
def pre_process_step (rs : RunState) : RunState :=
  let c := manage_context_growth { messages := some rs.messages, message_count := none }
  { rs with messages := rs.messages ++ c.messages.getD [] }

/-- One transition of the compiled workflow.  Supervisor and worker nodes
return `Command` objects; the `tools` node (a library `ToolNode`) appends the
tool-result messages of its oracle and follows the static edge
`tools → pre_process` (graph.py line 373). -/
inductive Step (agentNames : List String) : Config → Config → Prop where
  | pre (rs : RunState) :
      Step agentNames ⟨rs, GNode.pre⟩ ⟨pre_process_step rs, GNode.supervisor⟩
  | sup (rs : RunState) (result : RouteResult) (synth : String) (c : CommandU)
      (h : wrap_supervisor agentNames synth result rs = Except.ok c) :
      Step agentNames ⟨rs, GNode.supervisor⟩ ⟨applyCommand rs c, c.goto.toNode⟩
  | work (rs : RunState) (name : String) (out : List Msg) :
      Step agentNames ⟨rs, GNode.worker name⟩
        ⟨applyCommand rs (create_agent_wrapper name out rs),
         (create_agent_wrapper name out rs).goto.toNode⟩
  | tool (rs : RunState) (tmsgs : List Msg) :
      Step agentNames ⟨rs, GNode.tools⟩ ⟨{ rs with messages := rs.messages ++ tmsgs }, GNode.pre⟩

/-- Reachability in the workflow. -/
def Reaches (agentNames : List String) : Config → Config → Prop :=
  Relation.ReflTransGen (Step agentNames)

/-- The initial state built in `_execute_prompt_async` (crew.py lines
224-231) placed at the entry point `pre_process` (graph.py line 359). -/
def init_config (prompt : String) : Config :=
  ⟨{ messages := [Msg.human prompt], supervisor_visits := 0, agent_visits := [],
     termination_reason := none }, GNode.pre⟩

/-! ## Helper lemmas -/

theorem dictGet_dictSet (d : List (String × Nat)) (k : String) (v : Nat) :
    dictGet (dictSet d k v) k = v := by
  induction d with
  | nil => simp [dictGet, dictSet]
  | cons p rest ih =>
    by_cases h : p.1 = k
    · simp [dictGet, dictSet, h]
    · simpa [dictGet, dictSet, h] using ih

theorem charsLead_self_append (n post : List Char) : charsLead n (n ++ post) = true := by
  induction n with
  | nil => simp [charsLead]
  | cons c cs ih => simp [charsLead, ih]

theorem charsSub_of_lead (n hay : List Char) (h : charsLead n hay = true) :
    charsSub n hay = true := by
  cases hay with
  | nil => simpa [charsSub] using h
  | cons c cs => simp [charsSub, h]

theorem charsSub_append (pre n post : List Char) :
    charsSub n (pre ++ n ++ post) = true := by
  induction pre with
  | nil =>
    simp only [List.nil_append]
    exact charsSub_of_lead _ _ (charsLead_self_append n post)
  | cons c cs ih =>
    simp only [List.cons_append, charsSub, List.append_eq]
    rw [ih]
    simp

/-- Substring fact for the "mentions" properties: a string occurs inside any
string built around it by concatenation. -/
theorem pyIn_append (pre n post : String) : pyIn n (pre ++ n ++ post) = true := by
  have h : (pre ++ n ++ post).toList = pre.toList ++ n.toList ++ post.toList := by
    simp [String.toList]
  rw [pyIn, h]
  exact charsSub_append _ _ _

/-! ## C1: the global message-cap in `wrap_supervisor` -/

/-- A state reaching the supervisor node with 13 accumulated messages while the
supervisor still routes to a worker. -/
def c1_state : RunState :=
  { messages := (List.range 13).map (fun i => Msg.human (toString i)),
    supervisor_visits := 1, agent_visits := [("researcher", 1)],
    termination_reason := none }

/-- The supervisor decision used in the C1 evaluation. -/
def c1_route : RouteResult := { next? := some "researcher", reasoning := some "r" }

/-- C1 (code bug): with 13 accumulated messages — above the hard cap of 12 —
and a supervisor decision naming a valid worker, `wrap_supervisor` still routes
to the worker instead of `END`.  The cap checks at graph.py lines 248 and 253
read `updated_state`, the partial dict returned by `_supervisor_invoker`,
which always carries exactly one message and no `message_count` key, so they
can never fire. -/
theorem pyIn_mid_of_five (a b c d e : String) : pyIn b (a ++ b ++ c ++ d ++ e) = true := by
  have h : (a ++ b ++ c ++ d ++ e).toList =
      a.toList ++ b.toList ++ (c.toList ++ d.toList ++ e.toList) := by
    simp [String.toList, List.append_assoc]
  rw [pyIn, h]
  exact charsSub_append _ _ _

theorem pyIn_fourth_of_five (a b c d e : String) : pyIn d (a ++ b ++ c ++ d ++ e) = true := by
  have h : (a ++ b ++ c ++ d ++ e).toList =
      (a.toList ++ b.toList ++ c.toList) ++ d.toList ++ e.toList := by
    simp [String.toList, List.append_assoc]
  rw [pyIn, h]
  exact charsSub_append _ _ _

/-- Evaluation of the forced-termination branch of `create_agent_wrapper`
(graph.py lines 304-315): once the post-increment visit count reaches 3, the
command is fully determined by the incoming state. -/
theorem create_agent_wrapper_capped (agent_name : String) (out : List Msg) (rs : RunState)
    (h : dictGet rs.agent_visits agent_name + 1 ≥ 3) :
    create_agent_wrapper agent_name out rs =
      { update_messages := rs.messages ++
          [Msg.dictMsg "system"
            (max_visits_record (dictGet rs.agent_visits agent_name + 1) agent_name)],
        supervisor_visits := rs.supervisor_visits,
        agent_visits := dictSet rs.agent_visits agent_name
          (dictGet rs.agent_visits agent_name + 1),
        termination_reason := some (max_visits_reason agent_name),
        goto := Goto.END } := by
  have hv := dictGet_dictSet rs.agent_visits agent_name (dictGet rs.agent_visits agent_name + 1)
  simp only [create_agent_wrapper, hv]
  rw [if_pos h]

theorem C1_message_cap_check_dead :
    12 < c1_state.messages.length ∧
    supervisor_invoker c1_route =
      Except.ok { messages := [supervisor_message c1_route], next := "researcher",
                  message_count := none } ∧
    [supervisor_message c1_route].length = 1 ∧
    wrap_supervisor ["researcher"] "syn" c1_route c1_state =
      Except.ok { update_messages := [supervisor_message c1_route],
                  supervisor_visits := 2, agent_visits := [("researcher", 1)],
                  termination_reason := none, goto := Goto.node "researcher" } ∧
    Goto.node "researcher" ≠ Goto.END := by
  refine ⟨by decide, rfl, rfl, ?_, by decide⟩
  rfl

/-! ## C3: forced worker termination -/

/-- State of a run in which "researcher" has already been visited twice. -/
def c3_state : RunState :=
  { messages := [Msg.human "q"], supervisor_visits := 2,
    agent_visits := [("researcher", 2)], termination_reason := none }

/-- C3 counterexample: on the capping (third) visit the run is forced
terminal, but `termination_reason` is `"Max visits to researcher reached"`,
which mentions the worker's name and NOT the visit count 3 — the count
appears only in the appended system record.  This refutes the claim that
`termination_reason` is text mentioning both the name and the visit count. -/
theorem C3_reason_lacks_count_counterexample :
    (create_agent_wrapper "researcher" [Msg.ai (some "researcher") "out" []] c3_state).goto =
      Goto.END ∧
    (create_agent_wrapper "researcher" [Msg.ai (some "researcher") "out" []]
        c3_state).termination_reason = some "Max visits to researcher reached" ∧
    dictGet (create_agent_wrapper "researcher" [Msg.ai (some "researcher") "out" []]
        c3_state).agent_visits "researcher" = 3 ∧
    pyIn "3" "Max visits to researcher reached" = false := by
  exact ⟨rfl, rfl, rfl, by decide⟩

/-- C3 (amended): when a worker's post-increment visit count reaches the cap
3, that invocation forces the terminal state; `termination_reason` is set to
`"Max visits to <name> reached"` (mentioning the worker's name but not the
count), and a system message recording the forced termination — mentioning
both the visit count and the worker's name — is appended to the transcript. -/
theorem C3_forced_termination_amended (agent_name : String) (out : List Msg) (rs : RunState)
    (h : dictGet rs.agent_visits agent_name + 1 ≥ 3) :
    (create_agent_wrapper agent_name out rs).goto = Goto.END ∧
    (create_agent_wrapper agent_name out rs).termination_reason =
      some (max_visits_reason agent_name) ∧
    pyIn agent_name (max_visits_reason agent_name) = true ∧
    (create_agent_wrapper agent_name out rs).update_messages =
      rs.messages ++ [Msg.dictMsg "system"
        (max_visits_record (dictGet rs.agent_visits agent_name + 1) agent_name)] ∧
    pyIn (toString (dictGet rs.agent_visits agent_name + 1))
      (max_visits_record (dictGet rs.agent_visits agent_name + 1) agent_name) = true ∧
    pyIn agent_name
      (max_visits_record (dictGet rs.agent_visits agent_name + 1) agent_name) = true := by
  rw [create_agent_wrapper_capped agent_name out rs h]
  refine ⟨rfl, rfl, pyIn_append "Max visits to " agent_name " reached", rfl, ?_, ?_⟩
  · exact pyIn_mid_of_five "[SYSTEM] Workflow terminated due to max visits ("
      (toString (dictGet rs.agent_visits agent_name + 1)) ") to " agent_name "."
  · exact pyIn_fourth_of_five "[SYSTEM] Workflow terminated due to max visits ("
      (toString (dictGet rs.agent_visits agent_name + 1)) ") to " agent_name "."

/-- Witness for C3 at the concrete capping visit of "researcher". -/
theorem C3_forced_termination_amended_witness :
    (dictGet c3_state.agent_visits "researcher" + 1 ≥ 3) ∧
    ((create_agent_wrapper "researcher" [] c3_state).goto = Goto.END ∧
     (create_agent_wrapper "researcher" [] c3_state).termination_reason =
       some (max_visits_reason "researcher") ∧
     pyIn "researcher" (max_visits_reason "researcher") = true ∧
     (create_agent_wrapper "researcher" [] c3_state).update_messages =
       c3_state.messages ++ [Msg.dictMsg "system"
         (max_visits_record (dictGet c3_state.agent_visits "researcher" + 1) "researcher")] ∧
     pyIn (toString (dictGet c3_state.agent_visits "researcher" + 1))
       (max_visits_record (dictGet c3_state.agent_visits "researcher" + 1) "researcher") = true ∧
     pyIn "researcher"
       (max_visits_record (dictGet c3_state.agent_visits "researcher" + 1) "researcher") = true) :=
  ⟨by decide, C3_forced_termination_amended "researcher" [] c3_state (by decide)⟩

/-! ## C9: worker name stamping -/

/-- C9: on a non-capped visit, whatever message list the agent node produced,
if its last element is an `AIMessage` — with any author name `n` the
language-model client attached — the command's update carries that message
re-stamped with the worker's own name before it enters the shared
transcript. -/
theorem C9_worker_name_stamp (rs : RunState) (agent_name : String) (msgs : List Msg)
    (n : Option String) (content : String) (tc : List String)
    (h : dictGet rs.agent_visits agent_name + 1 < 3) :
    (create_agent_wrapper agent_name (msgs ++ [Msg.ai n content tc]) rs).update_messages =
      msgs ++ [Msg.ai (some agent_name) content tc] := by
  have hv := dictGet_dictSet rs.agent_visits agent_name (dictGet rs.agent_visits agent_name + 1)
  simp only [create_agent_wrapper, hv]
  rw [if_neg (by omega)]
  simp

/-- Witness for C9: the client stamped the message "someone-else"; the
wrapper re-stamps it "researcher". -/
theorem C9_worker_name_stamp_witness :
    (dictGet ([] : List (String × Nat)) "researcher" + 1 < 3) ∧
    (create_agent_wrapper "researcher"
        ([] ++ [Msg.ai (some "someone-else") "answer" []])
        { messages := [Msg.human "q"], supervisor_visits := 0, agent_visits := [],
          termination_reason := none }).update_messages =
      [] ++ [Msg.ai (some "researcher") "answer" []] :=
  ⟨by decide, C9_worker_name_stamp
    { messages := [Msg.human "q"], supervisor_visits := 0, agent_visits := [],
      termination_reason := none }
    "researcher" [] (some "someone-else") "answer" [] (by decide)⟩

/-! ## C10: the capped visit never invokes the agent -/

/-- C10: on the visit where the cap is reached, the wrapper's output is
independent of the agent node's output (the underlying agent chain is never
invoked, so no worker-authored message is produced), the only transcript
addition is the forced-termination record, and that record is a plain
`dict` message, not a typed system `Message` object. -/
theorem C10_capped_visit_no_invoke (rs : RunState) (agent_name : String)
    (out out2 : List Msg)
    (h : 3 ≤ dictGet rs.agent_visits agent_name + 1) :
    create_agent_wrapper agent_name out rs = create_agent_wrapper agent_name out2 rs ∧
    (create_agent_wrapper agent_name out rs).update_messages =
      rs.messages ++ [Msg.dictMsg "system"
        (max_visits_record (dictGet rs.agent_visits agent_name + 1) agent_name)] ∧
    (∀ content : String, Msg.dictMsg "system" content ≠ Msg.system content) := by
  rw [create_agent_wrapper_capped agent_name out rs h,
      create_agent_wrapper_capped agent_name out2 rs h]
  exact ⟨rfl, rfl, fun content => by simp⟩

/-- Witness for C10 with two different agent-node outputs. -/
theorem C10_capped_visit_no_invoke_witness :
    (3 ≤ dictGet c3_state.agent_visits "researcher" + 1) ∧
    (create_agent_wrapper "researcher" [Msg.ai (some "researcher") "a" []] c3_state =
       create_agent_wrapper "researcher" [Msg.ai (some "researcher") "b" ["t"]] c3_state ∧
     (create_agent_wrapper "researcher" [Msg.ai (some "researcher") "a" []]
         c3_state).update_messages =
       c3_state.messages ++ [Msg.dictMsg "system"
         (max_visits_record (dictGet c3_state.agent_visits "researcher" + 1) "researcher")] ∧
     (∀ content : String, Msg.dictMsg "system" content ≠ Msg.system content)) :=
  ⟨by decide, C10_capped_visit_no_invoke c3_state "researcher"
    [Msg.ai (some "researcher") "a" []] [Msg.ai (some "researcher") "b" ["t"]] (by decide)⟩

/-! ## C5: unparseable routing decisions -/

/-- C5 counterexample: when the structured output has no `next` value at all,
the supervisor step does not terminate the run as if FINISH had been chosen —
`result["next"]` in `_supervisor_invoker` (agents.py line 90) raises
`KeyError`, which propagates out of the supervisor node. -/
theorem C5_missing_next_counterexample :
    wrap_supervisor ["w"] "syn" { next? := none, reasoning := some "r" }
      { messages := [Msg.human "q"], supervisor_visits := 0, agent_visits := [],
        termination_reason := none } =
      Except.error "KeyError: next" := rfl

/-- C5 (amended): a `next` value that is present but outside the closed set of
worker names never raises and always yields a command routing to `END`
(`FINISH`/`__end__` are the normal terminal decisions; anything else falls
through to the invalid-next default of graph.py lines 263-265); a missing
`next` value instead raises `KeyError` from the invoker, which the service
layer converts into an error payload. -/
theorem C5_invalid_next_amended :
    (∀ (A : List String) (synth : String) (result : RouteResult) (rs : RunState) (nxt : String),
      result.next? = some nxt →
      ∃ c, wrap_supervisor A synth result rs = Except.ok c ∧ (nxt ∉ A → c.goto = Goto.END)) ∧
    (∀ (A : List String) (synth : String) (reasoning : Option String) (rs : RunState),
      wrap_supervisor A synth { next? := none, reasoning := reasoning } rs =
        Except.error "KeyError: next") := by
  constructor
  · intro A synth result rs nxt hn
    simp only [wrap_supervisor, supervisor_invoker, hn, List.getLast?_singleton]
    split_ifs <;>
      first
        | exact ⟨_, rfl, fun _ => rfl⟩
        | exact ⟨_, rfl, fun hnot => absurd (show nxt ∈ A by assumption) hnot⟩
  · intro A synth reasoning rs
    rfl

/-- Witness for C5 at an invalid decision value. -/
theorem C5_invalid_next_amended_witness :
    (({ next? := some "nonsense", reasoning := some "r" } : RouteResult).next? =
       some "nonsense") ∧
    (∃ c, wrap_supervisor ["w"] "syn" { next? := some "nonsense", reasoning := some "r" }
        { messages := [Msg.human "q"], supervisor_visits := 0, agent_visits := [],
          termination_reason := none } = Except.ok c ∧
      ("nonsense" ∉ ["w"] → c.goto = Goto.END)) :=
  ⟨rfl, C5_invalid_next_amended.1 ["w"] "syn"
    { next? := some "nonsense", reasoning := some "r" }
    { messages := [Msg.human "q"], supervisor_visits := 0, agent_visits := [],
      termination_reason := none } "nonsense" rfl⟩

/-! ## C4: final-answer synthesis on FINISH -/

/-- The command produced by the supervisor on the scenario-A "hello" run. -/
def c4_cmd : CommandU :=
  { update_messages := [Msg.ai (some "supervisor") "Hello! How can I help?" []],
    supervisor_visits := 0, agent_visits := [], termination_reason := none,
    goto := Goto.END }

/-- C4: when the supervisor decides FINISH and at least one worker was
visited, exactly one synthesized closing message authored "supervisor" is
appended after the supervisor's own message before termination; when no
worker was ever visited, no synthesis runs and the supervisor's message
stands alone; and on the concrete "hello" run with no workers the final
post-processed transcript is exactly the user message followed by the
supervisor message. -/
theorem C4_final_synthesis :
    (∀ (A : List String) (synth : String) (result : RouteResult) (rs : RunState) (nxt : String),
      result.next? = some nxt → (nxt = "FINISH" ∨ nxt = "__end__") →
      (∃ p ∈ rs.agent_visits, 0 < p.2) →
      wrap_supervisor A synth result rs =
        Except.ok { update_messages :=
                      [supervisor_message result, Msg.ai (some "supervisor") synth []],
                    supervisor_visits := rs.supervisor_visits,
                    agent_visits := rs.agent_visits,
                    termination_reason := rs.termination_reason, goto := Goto.END }) ∧
    (∀ (A : List String) (synth : String) (result : RouteResult) (rs : RunState) (nxt : String),
      result.next? = some nxt → (nxt = "FINISH" ∨ nxt = "__end__") →
      rs.agent_visits.all (fun q => q.2 == 0) = true →
      wrap_supervisor A synth result rs =
        Except.ok { update_messages := [supervisor_message result],
                    supervisor_visits := rs.supervisor_visits,
                    agent_visits := rs.agent_visits,
                    termination_reason := rs.termination_reason, goto := Goto.END }) ∧
    (wrap_supervisor [] "syn" { next? := some "FINISH", reasoning := some "Hello! How can I help?" }
        (pre_process_step (init_config "hello").rs) = Except.ok c4_cmd ∧
      post_process_messages
          (applyCommand (pre_process_step (init_config "hello").rs) c4_cmd).messages =
        [Msg.human "hello", Msg.ai (some "supervisor") "Hello! How can I help?" []]) := by
  refine ⟨?_, ?_, rfl, rfl⟩
  · intro A synth result rs nxt hn hfin hvis
    obtain ⟨p, hmem, hpos⟩ := hvis
    have hno : (rs.agent_visits.isEmpty || rs.agent_visits.all fun q => q.2 == 0) = false := by
      simp only [Bool.or_eq_false_iff]
      constructor
      · simpa [List.isEmpty_iff] using List.ne_nil_of_mem hmem
      · exact List.all_eq_false.mpr ⟨p, hmem, by simp; omega⟩
    simp only [wrap_supervisor, supervisor_invoker, hn]
    rw [if_pos hfin, hno]
    simp
  · intro A synth result rs nxt hn hfin hall
    have hyes : (rs.agent_visits.isEmpty || rs.agent_visits.all fun q => q.2 == 0) = true := by
      rw [hall]; simp
    simp only [wrap_supervisor, supervisor_invoker, hn]
    rw [if_pos hfin, hyes]
    simp

/-- Witness for C4: a FINISH decision after worker "w" was visited once, and
a FINISH decision with no visits at all. -/
theorem C4_final_synthesis_witness :
    (({ next? := some "FINISH", reasoning := some "done" } : RouteResult).next? =
       some "FINISH") ∧
    (∃ p ∈ [("w", 1)], 0 < p.2) ∧
    wrap_supervisor ["w"] "closing"
        { next? := some "FINISH", reasoning := some "done" }
        { messages := [Msg.human "q"], supervisor_visits := 2,
          agent_visits := [("w", 1)], termination_reason := none } =
      Except.ok { update_messages :=
                    [supervisor_message { next? := some "FINISH", reasoning := some "done" },
                     Msg.ai (some "supervisor") "closing" []],
                  supervisor_visits := 2, agent_visits := [("w", 1)],
                  termination_reason := none, goto := Goto.END } ∧
    wrap_supervisor ["w"] "closing"
        { next? := some "FINISH", reasoning := some "done" }
        { messages := [Msg.human "q"], supervisor_visits := 1,
          agent_visits := [], termination_reason := none } =
      Except.ok { update_messages :=
                    [supervisor_message { next? := some "FINISH", reasoning := some "done" }],
                  supervisor_visits := 1, agent_visits := [],
                  termination_reason := none, goto := Goto.END } :=
  ⟨rfl, ⟨("w", 1), by simp, by decide⟩,
    C4_final_synthesis.1 ["w"] "closing" _
      { messages := [Msg.human "q"], supervisor_visits := 2,
        agent_visits := [("w", 1)], termination_reason := none } "FINISH" rfl (Or.inl rfl)
      ⟨("w", 1), by simp, by decide⟩,
    C4_final_synthesis.2.1 ["w"] "closing" _
      { messages := [Msg.human "q"], supervisor_visits := 1,
        agent_visits := [], termination_reason := none } "FINISH" rfl (Or.inl rfl) rfl⟩

/-! ## C7: completion-time deduplication -/

theorem dedup_go_sublist (seen : List String) (msgs : List Msg) :
    (dedup_go seen msgs).Sublist msgs := by
  induction msgs generalizing seen with
  | nil => simp [dedup_go]
  | cons m rest ih =>
    simp only [dedup_go]
    split
    · exact (ih seen).trans (List.sublist_cons_self m rest)
    · exact List.Sublist.cons₂ m (ih _)

theorem dedup_go_keys_nodup (seen : List String) (msgs : List Msg) :
    ((dedup_go seen msgs).map dedup_key).Nodup ∧
    ∀ k ∈ (dedup_go seen msgs).map dedup_key, k ∉ seen := by
  induction msgs generalizing seen with
  | nil => simp [dedup_go]
  | cons m rest ih =>
    simp only [dedup_go]
    split
    · exact ih seen
    · rename_i hnotin
      obtain ⟨hnd, hfresh⟩ := ih (dedup_key m :: seen)
      refine ⟨?_, ?_⟩
      · simp only [List.map_cons, List.nodup_cons]
        refine ⟨fun hmem => ?_, hnd⟩
        exact (hfresh _ hmem) (List.mem_cons_self _ _)
      · intro k hk
        simp only [List.map_cons, List.mem_cons] at hk
        rcases hk with hk | hk
        · subst hk; exact hnotin
        · intro hks
          exact (hfresh _ hk) (List.mem_cons_of_mem _ hks)

theorem dedup_go_covers (seen : List String) (msgs : List Msg) (m : Msg) (hm : m ∈ msgs) :
    dedup_key m ∈ seen ∨ dedup_key m ∈ (dedup_go seen msgs).map dedup_key := by
  induction msgs generalizing seen with
  | nil => simp at hm
  | cons m0 rest ih =>
    simp only [dedup_go]
    rcases List.mem_cons.mp hm with hm0 | hmr
    · subst hm0
      split
      · rename_i hin; exact Or.inl hin
      · right; simp
    · split
      · exact ih seen hmr
      · rcases ih (dedup_key m0 :: seen) hmr with hs | hmap
        · rcases List.mem_cons.mp hs with he | hs
          · right; simp [he]
          · exact Or.inl hs
        · right; simp only [List.map_cons, List.mem_cons]; exact Or.inr hmap

/-- C7 counterexample: the dedup key is `(message class, content)`, not
`(author, content)`.  Two `AIMessage`s with the same content but different
authors are collapsed to one, even though no `(author, content)` pair
repeats — refuting the claim that only repeated `(author, content)` pairs
are dropped. -/
theorem C7_author_dedup_counterexample :
    post_process_messages [Msg.ai (some "alice") "x" [], Msg.ai (some "bob") "x" []] =
      [Msg.ai (some "alice") "x" []] ∧
    (some "alice" : Option String) ≠ some "bob" := by
  exact ⟨rfl, by decide⟩

/-- C7 (amended): the completion-time pass keeps the first occurrence of each
`(message class, content)` key — the class name for typed messages, the
`type` field for dict messages — so the output is a subsequence of the input
with pairwise-distinct keys covering every input message; two structurally
identical consecutive assistant messages collapse into one; and the collapse
of user messages runs only when the dedup pass removed at least one message
(a dedup-fixed transcript is returned unchanged). -/
theorem C7_dedup_amended :
    (∀ msgs : List Msg, (dedup_go [] msgs).Sublist msgs) ∧
    (∀ msgs : List Msg, ((dedup_go [] msgs).map dedup_key).Nodup) ∧
    (∀ (msgs : List Msg) (m : Msg), m ∈ msgs →
      dedup_key m ∈ (dedup_go [] msgs).map dedup_key) ∧
    (∀ (a : Option String) (content : String) (tc : List String) (rest : List Msg),
      dedup_go [] (Msg.ai a content tc :: Msg.ai a content tc :: rest) =
        dedup_go [] (Msg.ai a content tc :: rest)) ∧
    (∀ msgs : List Msg, dedup_go [] msgs = msgs → post_process_messages msgs = msgs) := by
  refine ⟨fun msgs => dedup_go_sublist [] msgs,
          fun msgs => (dedup_go_keys_nodup [] msgs).1,
          fun msgs m hm => ?_, fun a content tc rest => ?_, fun msgs h => ?_⟩
  · rcases dedup_go_covers [] msgs m hm with hs | hmap
    · simp at hs
    · exact hmap
  · simp [dedup_go]
  · simp [post_process_messages, h]

/-- Witness for C7 at a transcript with a repeated assistant message. -/
theorem C7_dedup_amended_witness :
    (Msg.ai (some "a") "x" [] ∈
      [Msg.human "q", Msg.ai (some "a") "x" [], Msg.ai (some "a") "x" []]) ∧
    (dedup_key (Msg.ai (some "a") "x" []) ∈
      (dedup_go [] [Msg.human "q", Msg.ai (some "a") "x" [],
        Msg.ai (some "a") "x" []]).map dedup_key) ∧
    (dedup_go [] [Msg.human "q", Msg.ai (some "a") "x" []] =
       [Msg.human "q", Msg.ai (some "a") "x" []]) ∧
    post_process_messages [Msg.human "q", Msg.ai (some "a") "x" []] =
      [Msg.human "q", Msg.ai (some "a") "x" []] :=
  ⟨by simp, C7_dedup_amended.2.2.1 _ _ (by simp), by decide,
    C7_dedup_amended.2.2.2.2 _ (by decide)⟩

/-! ## C8: the context manager -/

theorem summarized_length (msgs : List Msg) (h : 5 < msgs.length) :
    (msgs.take 1 ++ [Msg.system (summary_content (msgs.length - 4))] ++
      msgs.drop (msgs.length - 3)).length = 5 := by
  simp [List.length_take, List.length_drop]
  omega

theorem summarize_messages_of_gt (msgs : List Msg) (h : 5 < msgs.length) :
    summarize_messages msgs 3 =
      msgs.take 1 ++ [Msg.system (summary_content (msgs.length - 4))] ++
        msgs.drop (msgs.length - 3) := by
  have hlen : ((msgs.drop 1).take (msgs.length - 1 - 3)).length = msgs.length - 4 := by
    simp [List.length_take, List.length_drop]
    omega
  have hne : ¬(((msgs.drop 1).take (msgs.length - 1 - 3)).isEmpty = true) := by
    rw [List.isEmpty_iff]
    intro hnil
    rw [hnil] at hlen
    simp at hlen
    omega
  simp only [summarize_messages]
  rw [if_neg (by omega), if_neg hne, hlen]

theorem manage_context_growth_of_gt (msgs : List Msg) (mc : Option Nat) (h : 5 < msgs.length) :
    manage_context_growth ⟨some msgs, mc⟩ =
      ⟨some (msgs.take 1 ++ [Msg.system (summary_content (msgs.length - 4))] ++
        msgs.drop (msgs.length - 3)), some 5⟩ := by
  cases mc <;>
  · simp only [manage_context_growth]
    rw [if_pos h, summarize_messages_of_gt msgs h, summarized_length msgs h]

theorem manage_context_growth_of_le (msgs : List Msg) (mc : Option Nat) (h : msgs.length ≤ 5) :
    manage_context_growth ⟨some msgs, mc⟩ = ⟨some msgs, some msgs.length⟩ := by
  cases mc <;>
  · simp only [manage_context_growth]
    rw [if_neg (by omega)]

/-- C8: with more than 5 messages the context manager replaces the list with
exactly the first message, one synthetic system summary, and the last 3
original messages verbatim — 5 messages total — and refreshes
`message_count`; with at most 5 messages the list is returned unchanged with
`message_count` refreshed; and the whole pass is idempotent (hence a no-op on
an already-summarized state) and total. -/
theorem C8_context_manager :
    (∀ (msgs : List Msg) (mc : Option Nat), 5 < msgs.length →
      manage_context_growth ⟨some msgs, mc⟩ =
        ⟨some (msgs.take 1 ++ [Msg.system (summary_content (msgs.length - 4))] ++
          msgs.drop (msgs.length - 3)), some 5⟩ ∧
      (msgs.take 1 ++ [Msg.system (summary_content (msgs.length - 4))] ++
        msgs.drop (msgs.length - 3)).length = 5) ∧
    (∀ (msgs : List Msg) (mc : Option Nat), msgs.length ≤ 5 →
      manage_context_growth ⟨some msgs, mc⟩ = ⟨some msgs, some msgs.length⟩) ∧
    (∀ s : CtxState,
      manage_context_growth (manage_context_growth s) = manage_context_growth s) := by
  refine ⟨fun msgs mc h => ⟨manage_context_growth_of_gt msgs mc h, summarized_length msgs h⟩,
          fun msgs mc h => manage_context_growth_of_le msgs mc h, fun s => ?_⟩
  obtain ⟨om, omc⟩ := s
  cases om with
  | none => cases omc <;> simp [manage_context_growth]
  | some msgs =>
    by_cases h : 5 < msgs.length
    · rw [manage_context_growth_of_gt msgs omc h,
        manage_context_growth_of_le _ _ (le_of_eq (summarized_length msgs h)),
        summarized_length msgs h]
    · rw [manage_context_growth_of_le msgs omc (by omega),
        manage_context_growth_of_le msgs _ (by omega)]

/-- Witness for C8 at a 7-message list and a 1-message list. -/
theorem C8_context_manager_witness :
    (5 < ((List.range 7).map (fun i => Msg.human (toString i))).length) ∧
    (manage_context_growth ⟨some ((List.range 7).map (fun i => Msg.human (toString i))), some 1⟩ =
       ⟨some (((List.range 7).map (fun i => Msg.human (toString i))).take 1 ++
          [Msg.system (summary_content
            (((List.range 7).map (fun i => Msg.human (toString i))).length - 4))] ++
          ((List.range 7).map (fun i => Msg.human (toString i))).drop
            (((List.range 7).map (fun i => Msg.human (toString i))).length - 3)),
        some 5⟩ ∧
      (((List.range 7).map (fun i => Msg.human (toString i))).take 1 ++
        [Msg.system (summary_content
          (((List.range 7).map (fun i => Msg.human (toString i))).length - 4))] ++
        ((List.range 7).map (fun i => Msg.human (toString i))).drop
          (((List.range 7).map (fun i => Msg.human (toString i))).length - 3)).length = 5) ∧
    ([Msg.human "a"].length ≤ 5) ∧
    manage_context_growth ⟨some [Msg.human "a"], none⟩ =
      ⟨some [Msg.human "a"], some [Msg.human "a"].length⟩ :=
  ⟨by decide,
    C8_context_manager.1 ((List.range 7).map (fun i => Msg.human (toString i))) (some 1)
      (by decide),
    by decide,
    C8_context_manager.2.1 [Msg.human "a"] none (by decide)⟩

/-! ## C2: the supervisor-visit bound -/

/-- Case analysis of `wrap_supervisor`: either the counter is untouched and
the command is terminal (the FINISH and completion-marker branches, which run
before the increment), or the counter was incremented, and then any
non-terminal routing implies the post-increment value passed the `> 5`
check. -/
theorem wrap_supervisor_sv (A : List String) (synth : String) (result : RouteResult)
    (rs : RunState) (c : CommandU) (h : wrap_supervisor A synth result rs = Except.ok c) :
    (c.supervisor_visits = rs.supervisor_visits ∧ c.goto = Goto.END) ∨
    (c.supervisor_visits = rs.supervisor_visits + 1 ∧
      (c.goto = Goto.END ∨ rs.supervisor_visits + 1 ≤ 5)) := by
  cases hn : result.next? with
  | none => simp [wrap_supervisor, supervisor_invoker, hn] at h
  | some nxt =>
    simp only [wrap_supervisor, supervisor_invoker, hn, List.getLast?_singleton] at h
    split_ifs at h <;> (injection h with h; subst h) <;>
      first
        | exact Or.inl ⟨rfl, rfl⟩
        | exact Or.inr ⟨rfl, Or.inl rfl⟩
        | exact Or.inr ⟨rfl, Or.inr (by omega)⟩

/-- Worker wrappers never touch the supervisor counter. -/
theorem create_agent_wrapper_sv (agent_name : String) (out : List Msg) (rs : RunState) :
    (create_agent_wrapper agent_name out rs).supervisor_visits = rs.supervisor_visits := by
  simp only [create_agent_wrapper]
  split_ifs <;> rfl

/-- The invariant carried along every run: at most 5 supervisor visits while
the workflow is still live, at most 6 in any case. -/
def SupInv (cfg : Config) : Prop :=
  (cfg.loc ≠ GNode.terminal → cfg.rs.supervisor_visits ≤ 5) ∧
  cfg.rs.supervisor_visits ≤ 6

theorem step_SupInv {A : List String} {c1 c2 : Config} (h : Step A c1 c2)
    (hi : SupInv c1) : SupInv c2 := by
  obtain ⟨hi5, _hi6⟩ := hi
  cases h with
  | pre rs =>
    have h5 : rs.supervisor_visits ≤ 5 := hi5 (by simp)
    refine ⟨fun _ => h5, ?_⟩
    show rs.supervisor_visits ≤ 6
    omega
  | sup rs result synth c hok =>
    have h5 : rs.supervisor_visits ≤ 5 := hi5 (by simp)
    rcases wrap_supervisor_sv A synth result rs c hok with ⟨hsv, hgoto⟩ | ⟨hsv, hEND | hle⟩
    · refine ⟨fun hne => (hne (by simp [hgoto, Goto.toNode])).elim, ?_⟩
      show c.supervisor_visits ≤ 6
      omega
    · refine ⟨fun hne => (hne (by simp [hEND, Goto.toNode])).elim, ?_⟩
      show c.supervisor_visits ≤ 6
      omega
    · exact ⟨fun _ => by show c.supervisor_visits ≤ 5; omega,
             by show c.supervisor_visits ≤ 6; omega⟩
  | work rs name out =>
    have h5 : rs.supervisor_visits ≤ 5 := hi5 (by simp)
    have hsv := create_agent_wrapper_sv name out rs
    exact ⟨fun _ => by show (create_agent_wrapper name out rs).supervisor_visits ≤ 5; omega,
           by show (create_agent_wrapper name out rs).supervisor_visits ≤ 6; omega⟩
  | tool rs tmsgs =>
    have h5 : rs.supervisor_visits ≤ 5 := hi5 (by simp)
    refine ⟨fun _ => h5, ?_⟩
    show rs.supervisor_visits ≤ 6
    omega

/-- C2: on every terminating run — any reachable terminal configuration of
the workflow started from the service's initial state — `supervisor_visits`
is at most the hardcoded threshold 5 plus one: the check at graph.py line 243
is post-increment, so the counter can reach 6 on the forced-termination
visit but never exceeds it. -/
theorem C2_supervisor_visits_bounded (A : List String) (prompt : String) (cfg : Config)
    (h1 : Reaches A (init_config prompt) cfg) (_hterm : cfg.loc = GNode.terminal) :
    cfg.rs.supervisor_visits ≤ 5 + 1 := by
  have hinv : SupInv cfg := by
    clear _hterm
    induction h1 with
    | refl => exact ⟨fun _ => by simp [init_config], by simp [init_config]⟩
    | tail _hsteps hstep ih => exact step_SupInv hstep ih
  exact hinv.2

/-- The terminal command of the witness run for C2. -/
def c2_cmd : CommandU :=
  { update_messages := [Msg.ai (some "supervisor") "Hello there" []],
    supervisor_visits := 0, agent_visits := [], termination_reason := none,
    goto := Goto.END }

/-- Witness for C2: the two-step run "hello" → pre_process → supervisor
(FINISH) reaches the terminal state with `supervisor_visits = 0 ≤ 6`. -/
theorem C2_supervisor_visits_bounded_witness :
    Reaches [] (init_config "hello")
      ⟨applyCommand (pre_process_step (init_config "hello").rs) c2_cmd, GNode.terminal⟩ ∧
    (applyCommand (pre_process_step (init_config "hello").rs) c2_cmd).supervisor_visits ≤
      5 + 1 := by
  have hw : wrap_supervisor [] "syn"
      { next? := some "FINISH", reasoning := some "Hello there" }
      (pre_process_step (init_config "hello").rs) = Except.ok c2_cmd := rfl
  have hreach : Reaches [] (init_config "hello")
      ⟨applyCommand (pre_process_step (init_config "hello").rs) c2_cmd, GNode.terminal⟩ :=
    Relation.ReflTransGen.tail (Relation.ReflTransGen.single (Step.pre _))
      (Step.sup _ _ _ _ hw)
  exact ⟨hreach, C2_supervisor_visits_bounded [] "hello" _ hreach rfl⟩

/-! ## C6: the resilient tool wrapper -/

theorem resilient_run_go_all_fail (base : Nat → Except String String) (max_retries : Nat)
    (err : Nat → String) :
    ∀ attempt, attempt ≤ max_retries →
      (∀ j, attempt ≤ j → j ≤ max_retries → base j = Except.error (err j)) →
      resilient_run_go base max_retries attempt = run_fail_msg max_retries (err max_retries) := by
  intro attempt
  induction attempt using resilient_run_go.induct base max_retries with
  | case1 att v hok =>
    intro hle hall
    rw [hall att (le_refl _) hle] at hok
    exact absurd hok (by simp)
  | case2 att e herr hlt ih =>
    intro hle hall
    rw [resilient_run_go, herr]
    dsimp only
    rw [dif_pos hlt]
    exact ih (by omega) (fun j hj1 hj2 => hall j (by omega) hj2)
  | case3 att e herr hnlt =>
    intro hle hall
    rw [resilient_run_go, herr]
    dsimp only
    rw [dif_neg hnlt]
    have hatt : att = max_retries := by omega
    subst hatt
    have h2 := hall att (le_refl _) (le_refl _)
    rw [h2] at herr
    simp only [Except.error.injEq] at herr
    rw [herr]

theorem resilient_run_go_congr (base base2 : Nat → Except String String) (max_retries : Nat) :
    ∀ attempt, (∀ i, i ≤ max_retries → base i = base2 i) → attempt ≤ max_retries →
      resilient_run_go base max_retries attempt = resilient_run_go base2 max_retries attempt := by
  intro attempt
  induction attempt using resilient_run_go.induct base max_retries with
  | case1 att v hok =>
    intro hsame hle
    rw [resilient_run_go]
    conv_rhs => rw [resilient_run_go]
    rw [← hsame att hle, hok]
  | case2 att e herr hlt ih =>
    intro hsame hle
    rw [resilient_run_go]
    conv_rhs => rw [resilient_run_go]
    rw [← hsame att hle, herr]
    dsimp only
    rw [dif_pos hlt, dif_pos hlt]
    exact ih hsame (by omega)
  | case3 att e herr hnlt =>
    intro hsame hle
    rw [resilient_run_go]
    conv_rhs => rw [resilient_run_go]
    rw [← hsame att hle, herr]
    dsimp only
    rw [dif_neg hnlt, dif_neg hnlt]

theorem resilient_arun_go_ok (base : Nat → Except ToolErr String) (max_retries : Nat) :
    ∀ attempt, (∀ i m, base i ≠ Except.error (ToolErr.unboundLocal m)) →
      ∃ v, resilient_arun_go base max_retries attempt = Except.ok v := by
  intro attempt
  induction attempt using resilient_arun_go.induct base max_retries with
  | case1 att v hok =>
    intro _hall
    exact ⟨v, by rw [resilient_arun_go, hok]⟩
  | case2 att m herr hlt ih =>
    intro hall
    obtain ⟨v, hv⟩ := ih hall
    refine ⟨v, ?_⟩
    rw [resilient_arun_go, herr]
    dsimp only
    rw [dif_pos hlt]
    exact hv
  | case3 att m herr hnlt =>
    intro _hall
    exact ⟨_, by rw [resilient_arun_go, herr]; dsimp only; rw [dif_neg hnlt]⟩
  | case4 att m herr _hpy =>
    intro hall
    exact absurd herr (hall att m)
  | case5 att m herr _hpy =>
    intro hall
    exact absurd herr (hall att m)
  | case6 att m herr hlt ih =>
    intro hall
    obtain ⟨v, hv⟩ := ih hall
    refine ⟨v, ?_⟩
    rw [resilient_arun_go, herr]
    dsimp only
    rw [dif_pos hlt]
    exact hv
  | case7 att m herr hnlt =>
    intro _hall
    exact ⟨_, by rw [resilient_arun_go, herr]; dsimp only; rw [dif_neg hnlt]⟩

/-- C6 counterexample: the async wrapper CAN raise.  A base tool whose
`_arun` raises `UnboundLocalError` with a message not mentioning
`call_tool_result` hits the bare `raise` at tools.py line 112, so
`_resilient_arun` propagates the exception instead of returning an error
string — refuting "invoking the resilient wrapper never raises". -/
theorem C6_arun_reraise_counterexample :
    resilient_arun (fun _ => Except.error (ToolErr.unboundLocal "weird")) 2 =
      Except.error (ToolErr.unboundLocal "weird") := by
  have hp : pyIn "call_tool_result" "weird" = false := by decide
  rw [resilient_arun, resilient_arun_go]
  simp [hp]

/-- C6 (amended): the synchronous wrapper never raises — when every attempt up
to `max_retries` fails it returns the descriptive error string built from the
last error, and its result only depends on the first `max_retries + 1`
attempts (so at most N+1 attempts are made); the asynchronous wrapper also
never raises provided the base tool never raises `UnboundLocalError` — an
`UnboundLocalError` whose message lacks `call_tool_result` is re-raised. -/
theorem C6_resilient_wrapper_amended :
    (∀ (base : Nat → Except String String) (max_retries : Nat) (err : Nat → String),
      (∀ j, j ≤ max_retries → base j = Except.error (err j)) →
      resilient_run base max_retries = run_fail_msg max_retries (err max_retries)) ∧
    (∀ (base base2 : Nat → Except String String) (max_retries : Nat),
      (∀ i, i ≤ max_retries → base i = base2 i) →
      resilient_run base max_retries = resilient_run base2 max_retries) ∧
    (∀ (base : Nat → Except ToolErr String) (max_retries : Nat),
      (∀ i m, base i ≠ Except.error (ToolErr.unboundLocal m)) →
      ∃ v, resilient_arun base max_retries = Except.ok v) :=
  ⟨fun base max_retries err hall =>
      resilient_run_go_all_fail base max_retries err 0 (Nat.zero_le _)
        (fun j _ hj2 => hall j hj2),
    fun base base2 max_retries hsame =>
      resilient_run_go_congr base base2 max_retries 0 hsame (Nat.zero_le _),
    fun base max_retries hall => resilient_arun_go_ok base max_retries 0 hall⟩

/-- Witness for C6: a tool failing on every attempt yields the error string;
two bases agreeing on attempts 0..2 yield the same result; a tool raising
only generic errors never raises through the async wrapper. -/
theorem C6_resilient_wrapper_amended_witness :
    resilient_run (fun _ => Except.error "boom") 2 = run_fail_msg 2 "boom" ∧
    resilient_run (fun i => if i ≤ 2 then Except.ok "v" else Except.error "x") 2 =
      resilient_run (fun i => if i ≤ 2 then Except.ok "v" else Except.error "y") 2 ∧
    (∃ v, resilient_arun (fun _ => Except.error (ToolErr.generic "g")) 2 = Except.ok v) :=
  ⟨C6_resilient_wrapper_amended.1 (fun _ => Except.error "boom") 2 (fun _ => "boom")
      (fun _ _ => rfl),
    C6_resilient_wrapper_amended.2.1 _ _ 2 (fun i hi => by simp [hi]),
    C6_resilient_wrapper_amended.2.2 (fun _ => Except.error (ToolErr.generic "g")) 2
      (fun i m => by simp)⟩

end A2A
